import Mathlib

/-!
Verification development for the ideon-map-scraper repository.

The Python scripts are shallowly embedded as pure Lean functions over
`List Char` / `String`, with Python floats modelled as exact rationals (ℚ).
Regex matching is embedded as deterministic matching functions; for the two
patterns used by `parse_tooltip` this is exact, because in both patterns every
quantified sub-expression is followed by a character that its class cannot
contain, so Python's backtracking engine admits exactly one match at each
start position, and `re.search` returns the leftmost such position, which we
reproduce by trying every suffix in order.
-/

set_option maxRecDepth 10000

/-- Digit value of a character (`'0'` ↦ 0, …, `'9'` ↦ 9). -/
def digitVal (c : Char) : ℕ := c.toNat - 48

/-- Value of a decimal digit string, most significant digit first. -/
def digitsVal (l : List Char) : ℕ := l.foldl (fun a c => 10 * a + digitVal c) 0

lemma dropWhileLenLe {α : Type} (p : α → Bool) (l : List α) :
    (l.dropWhile p).length ≤ l.length := by
  induction l with
  | nil => simp
  | cons a l ih =>
    by_cases h : p a
    · rw [List.dropWhile_cons_of_pos h]; simp only [List.length_cons]; omega
    · rw [List.dropWhile_cons_of_neg h]

/-- Word splitter, structurally recursive on a fuel argument so that it stays
kernel-reducible.  Every recursive call shortens the list by at least one
character, so any fuel at least the list length yields the fixpoint. -/
def wordsOfAux : ℕ → List Char → List (List Char)
  | 0, _ => []
  | _ + 1, [] => []
  | fuel + 1, c :: r =>
    if c.isWhitespace then wordsOfAux fuel r
    else ((c :: r).takeWhile (fun x => !x.isWhitespace)) ::
      wordsOfAux fuel ((c :: r).dropWhile (fun x => !x.isWhitespace))

/-- Splits a character list into maximal whitespace-free words, as Python
`str.split()` does (empty words are dropped). -/
def wordsOf (cs : List Char) : List (List Char) := wordsOfAux cs.length cs

/-- Whitespace normalization `" ".join(text.split())` used by both
tooltip parsers. -/
def normWs (cs : List Char) : List Char := List.intercalate [' '] (wordsOf cs)

/-- Python `str.strip()`: remove leading and trailing whitespace. -/
def pyStrip (cs : List Char) : List Char :=
  ((cs.dropWhile Char.isWhitespace).reverse.dropWhile Char.isWhitespace).reverse

/-- Exponent suffix of a Python float literal: either nothing is left, or
`e`/`E`, an optional sign and a nonempty digit run ending the string. -/
def expVal (v : ℚ) (cs : List Char) : Option ℚ :=
  match cs with
  | [] => some v
  | c :: r =>
    if c = 'e' ∨ c = 'E' then
      let sr : ℤ × List Char :=
        match r with
        | '+' :: t => (1, t)
        | '-' :: t => (-1, t)
        | t => (1, t)
      let ed := sr.2.takeWhile Char.isDigit
      if ed.isEmpty then none
      else if (sr.2.dropWhile Char.isDigit).isEmpty then
        some (v * (10 : ℚ) ^ (sr.1 * (digitsVal ed : ℤ)))
      else none
    else none

/-- Continuation of the unsigned float parse after the leading digit run
`ip`: either a fractional part `. digits` follows, or the exponent/end is
handled directly; a parse with neither integer nor fraction digits fails. -/
def pyFloatTail (ip : List Char) : List Char → Option ℚ
  | c :: r2 =>
    if c = '.' then
      if ip.isEmpty && (r2.takeWhile Char.isDigit).isEmpty then none
      else expVal ((digitsVal ip : ℚ) + (digitsVal (r2.takeWhile Char.isDigit) : ℚ)
        / (10 : ℚ) ^ (r2.takeWhile Char.isDigit).length) (r2.dropWhile Char.isDigit)
    else if ip.isEmpty then none else expVal (digitsVal ip) (c :: r2)
  | [] => if ip.isEmpty then none else expVal (digitsVal ip) []

/-- Unsigned part of Python `float()` on a decimal literal:
`digits [. digits] [exp]` or `. digits [exp]`. -/
def pyFloatUnsigned (cs : List Char) : Option ℚ :=
  pyFloatTail (cs.takeWhile Char.isDigit) (cs.dropWhile Char.isDigit)

/-- Python `float()` on decimal literals, modelled over ℚ: optional sign, then
an unsigned decimal with optional fraction and exponent.  The `inf`/`nan`
forms and digit-grouping underscores, which cannot denote a rational and never
occur in tooltip money strings, are not modelled. -/
def pyFloat (cs : List Char) : Option ℚ :=
  match cs with
  | [] => none
  | c :: r =>
    if c = '+' then pyFloatUnsigned r
    else if c = '-' then (pyFloatUnsigned r).map Neg.neg
    else pyFloatUnsigned (c :: r)

/-- Function `parse_money` from `scripts/scrape_ideon_map.py`: empty input is absent;
otherwise remove every `,` and `$`, strip whitespace, and parse as a signed
decimal, with an unparsable remainder yielding absence. -/
def parse_money (v : List Char) : Option ℚ :=
  if v.isEmpty then none
  else pyFloat (pyStrip (v.filter (fun c => c != ',' && c != '$')))

unseal Rat.add Rat.mul Rat.inv Rat.sub in
example : parse_money "$1,414.50".data = some (2829 / 2) := by decide
example : parse_money "".data = none := by decide
example : parse_money ",".data = none := by decide
unseal Rat.add Rat.mul Rat.inv Rat.sub in
example : parse_money "-605.64".data = some (-(15141 / 25)) := by decide

/-- Class `[A-Z]` under `re.IGNORECASE`: any ASCII letter. -/
def letterIC (c : Char) : Bool := ('A' ≤ c && c ≤ 'Z') || ('a' ≤ c && c ≤ 'z')

/-- Class `[A-Z]` without `re.IGNORECASE` (lenient-fallback county/state pattern). -/
def upperAZ (c : Char) : Bool := 'A' ≤ c && c ≤ 'Z'

/-- The strict pattern's money character class `[\d,.-]`. -/
def isMoneyC (c : Char) : Bool := c.isDigit || c = ',' || c = '.' || c = '-'

/-- The character class standing between `Ind` and `Small` in
`TOOLTIP_PATTERN`.  The source file's bytes at that spot are `-` followed by
the three characters `â` (U+00E2), `€` (U+20AC) and `“` (U+201C) — a UTF-8 en
dash that was double-decoded — so this is the class Python compiles.  A real
en dash U+2013 is not in the class. -/
def isDashC (c : Char) : Bool := c = '-' || c = 'â' || c = '€' || c = '“'

/-- Pattern `\s*`: skip a maximal whitespace run. -/
def skipWs (cs : List Char) : List Char := cs.dropWhile Char.isWhitespace

/-- Pattern `\$?`: an optional dollar sign.  (`$` is not in any following class, so
consuming it greedily when present is the unique regex behaviour.) -/
def skipDollar : List Char → List Char
  | '$' :: r => r
  | cs => cs

/-- Case-insensitive literal match: `pat` must be given lower-case; returns
the remaining input on success. -/
def expectIC : List Char → List Char → Option (List Char)
  | [], cs => some cs
  | _ :: _, [] => none
  | p :: ps, c :: cs => if c.toLower = p then expectIC ps cs else none

/-- Group `[\d,.-]+`: a nonempty maximal run of money characters,
returned together with the remaining input. -/
def moneyRun (cs : List Char) : Option (List Char × List Char) :=
  if (cs.takeWhile isMoneyC).isEmpty then none
  else some (cs.takeWhile isMoneyC, cs.dropWhile isMoneyC)

/-- The five capture groups of `TOOLTIP_PATTERN`. -/
structure StrictGroups where
  county : List Char
  state : List Char
  diff : List Char
  individual : List Char
  small_group : List Char
deriving Repr, DecidableEq

/-- Stage of `TOOLTIP_PATTERN` at `\\$?(?P<small_group>[\\d,.-]+)` (end of the
pattern). -/
def stageSgNum (county ab dg ig : List Char) (cs : List Char) : Option StrictGroups :=
  match moneyRun cs with
  | some (gg, _) => some ⟨county, ab, dg, ig, gg⟩
  | none => none

/-- Stage of `TOOLTIP_PATTERN` at `Small\\s*Group:\\s*\\$?…`. -/
def stageSgLit (county ab dg ig : List Char) (cs : List Char) : Option StrictGroups :=
  match expectIC ['s', 'm', 'a', 'l', 'l'] (skipWs cs) with
  | some r10 =>
    match expectIC ['g', 'r', 'o', 'u', 'p', ':'] (skipWs r10) with
    | some r11 => stageSgNum county ab dg ig (skipDollar (skipWs r11))
    | none => none
  | none => none

/-- Stage of `TOOLTIP_PATTERN` at `(?P<individual>[\\d,.-]+)\\s*…`. -/
def stageIndNum (county ab dg : List Char) (cs : List Char) : Option StrictGroups :=
  match moneyRun cs with
  | some (ig, r9) => stageSgLit county ab dg ig r9
  | none => none

/-- Stage of `TOOLTIP_PATTERN` at `Individual:\\s*\\$?…`. -/
def stageIndLit (county ab dg : List Char) (cs : List Char) : Option StrictGroups :=
  match expectIC ['i', 'n', 'd', 'i', 'v', 'i', 'd', 'u', 'a', 'l', ':'] (skipWs cs) with
  | some r8 => stageIndNum county ab dg (skipDollar (skipWs r8))
  | none => none

/-- Stage of `TOOLTIP_PATTERN` at `(?P<diff>[\\d,.-]+)\\s*…`. -/
def stageDiffNum (county ab : List Char) (cs : List Char) : Option StrictGroups :=
  match moneyRun cs with
  | some (dg, r7) => stageIndLit county ab dg r7
  | none => none

/-- Stage of `TOOLTIP_PATTERN` at
`Diff\\s*\\(Ind\\s*[-â€“]\\s*Small\\):\\s*\\$?…` (see `isDashC` for the class). -/
def stageDiff (county ab : List Char) (cs : List Char) : Option StrictGroups :=
  match expectIC ['d', 'i', 'f', 'f'] (skipWs cs) with
  | some r3 =>
    match expectIC ['(', 'i', 'n', 'd'] (skipWs r3) with
    | some r4 =>
      match skipWs r4 with
      | d :: r5 =>
        if isDashC d then
          match expectIC ['s', 'm', 'a', 'l', 'l', ')', ':'] (skipWs r5) with
          | some r6 => stageDiffNum county ab (skipDollar (skipWs r6))
          | none => none
        else none
      | [] => none
    | none => none
  | none => none

/-- Stage of `TOOLTIP_PATTERN` after the county comma:
`\\s*(?P<state>[A-Z]{2})\\s*…` (with `re.IGNORECASE`). -/
def afterComma (county : List Char) (r1 : List Char) : Option StrictGroups :=
  match skipWs r1 with
  | a :: b :: r2 => if letterIC a && letterIC b then stageDiff county [a, b] r2 else none
  | _ => none

/-- One attempted match of `TOOLTIP_PATTERN` at the start of `cs`.  Every
quantified piece of the pattern is followed by a character its class excludes,
so the greedy, backtracking-free reading implemented here is the unique match
Python can produce at this position.  The county group `[^,]+` is the run up
to the first comma and must be nonempty. -/
def matchStrictAt (cs : List Char) : Option StrictGroups :=
  match cs.takeWhile (fun c => c != ','), cs.dropWhile (fun c => c != ',') with
  | [], _ => none
  | _, [] => none
  | county, ',' :: r1 => afterComma county r1
  | _, _ => none

/-- Search `re.search` with `TOOLTIP_PATTERN`: leftmost match, trying every start
position in order. -/
def searchStrict : List Char → Option StrictGroups
  | [] => none
  | c :: r =>
    match matchStrictAt (c :: r) with
    | some g => some g
    | none => searchStrict r

/-- Capture groups of the lenient pattern `([^,]+),\s*([A-Z]{2})`. -/
structure SimpleGroups where
  county : List Char
  state : List Char
deriving Repr, DecidableEq

/-- One attempted match of the lenient county/state pattern at the start of
`cs`. -/
def matchSimpleAt (cs : List Char) : Option SimpleGroups :=
  let county := cs.takeWhile (fun c => c != ',')
  if county.isEmpty then none else
  match cs.dropWhile (fun c => c != ',') with
  | ',' :: r1 =>
    match skipWs r1 with
    | a :: b :: _ => if upperAZ a && upperAZ b then some ⟨county, [a, b]⟩ else none
    | _ => none
  | _ => none

/-- Search `re.search` with the lenient county/state pattern. -/
def searchSimple : List Char → Option SimpleGroups
  | [] => none
  | c :: r =>
    match matchSimpleAt (c :: r) with
    | some g => some g
    | none => searchSimple r

/-- One attempted match of the token pattern `\$?([\d,]+\.?\d*)` (group only)
at the start of `cs`, after any leading `$` has been handled by the caller. -/
def numTok (cs : List Char) : Option (List Char × List Char) :=
  let d1 := cs.takeWhile (fun c => c.isDigit || c = ',')
  if d1.isEmpty then none
  else
    match cs.dropWhile (fun c => c.isDigit || c = ',') with
    | '.' :: r2 =>
      let d2 := r2.takeWhile Char.isDigit
      some (d1 ++ '.' :: d2, r2.dropWhile Char.isDigit)
    | r1 => some (d1, r1)

lemma numTok_rest_lt {cs t r} (h : numTok cs = some (t, r)) : r.length < cs.length := by
  unfold numTok at h
  by_cases he : (cs.takeWhile (fun c => c.isDigit || c = ',')).isEmpty
  · rw [if_pos he] at h; exact absurd h (by simp)
  · rw [if_neg he] at h
    have hlen : (cs.takeWhile (fun c => c.isDigit || c = ',')).length
        + (cs.dropWhile (fun c => c.isDigit || c = ',')).length = cs.length := by
      have hsplit := List.takeWhile_append_dropWhile
        (p := fun c => c.isDigit || c = ',') (l := cs)
      have h2 := congrArg List.length hsplit
      rwa [List.length_append] at h2
    have hd1pos : 0 < (cs.takeWhile (fun c => c.isDigit || c = ',')).length := by
      cases hx : cs.takeWhile (fun c => c.isDigit || c = ',') with
      | nil => rw [hx] at he; simp at he
      | cons x xs => simp
    split at h
    · rename_i r2 heq
      obtain ⟨ht, hr⟩ := Prod.mk.inj (Option.some.inj h)
      subst hr
      have h2 : (r2.dropWhile Char.isDigit).length ≤ r2.length := dropWhileLenLe _ _
      rw [heq] at hlen
      simp only [List.length_cons] at hlen
      omega
    · obtain ⟨ht, hr⟩ := Prod.mk.inj (Option.some.inj h)
      subst hr
      omega

/-- Scanner `re.findall(r"\$?([\d,]+\.?\d*)", text)`: scan left to right, at each
position try the token pattern (consuming a leading `$` when present — `$` is
not in the group's classes, so this is the unique behaviour), emit the capture
group and resume after the match, else advance one character.  Structurally
recursive on fuel; by `numTok_rest_lt` every step shortens the list, so fuel
equal to the list length (as supplied by `findNums`) reaches the fixpoint. -/
def findNumsAux : ℕ → List Char → List (List Char)
  | 0, _ => []
  | _ + 1, [] => []
  | fuel + 1, c :: r =>
    if c = '$' then
      match numTok r with
      | some (t, r') => t :: findNumsAux fuel r'
      | none => findNumsAux fuel r
    else
      match numTok (c :: r) with
      | some (t, r') => t :: findNumsAux fuel r'
      | none => findNumsAux fuel r

def findNums (cs : List Char) : List (List Char) := findNumsAux cs.length cs

/-- The parsed-tooltip record produced by `parse_tooltip` in
`scripts/scrape_ideon_map.py` (dict with county, state and three parsed
money fields). -/
structure TooltipData where
  county : String
  state : String
  individual_premium : Option ℚ
  small_group_premium : Option ℚ
  difference : Option ℚ
deriving Repr, DecidableEq

/-- Function `parse_tooltip` from `scripts/scrape_ideon_map.py`: reject empty text,
normalize whitespace, try the strict pattern, then the lenient
county/state-plus-numeric-tokens fallback. -/
def parse_tooltip (text : String) : Option TooltipData :=
  if text = "" then none
  else
    let cs := normWs text.data
    match searchStrict cs with
    | some g =>
      some ⟨String.mk (pyStrip g.county), String.mk (pyStrip g.state),
        parse_money g.individual, parse_money g.small_group, parse_money g.diff⟩
    | none =>
      match searchSimple cs with
      | some g =>
        let numbers := findNums cs
        if 2 ≤ numbers.length then
          some ⟨String.mk (pyStrip g.county), String.mk (pyStrip g.state),
            if 2 ≤ numbers.length then parse_money (numbers.getD (numbers.length - 2) []) else none,
            if 1 ≤ numbers.length then parse_money (numbers.getD (numbers.length - 1) []) else none,
            if 3 ≤ numbers.length then parse_money (numbers.getD 0 []) else none⟩
        else none
      | none => none

unseal Rat.add Rat.mul Rat.inv Rat.sub in
example : parse_tooltip "Shasta County, CA\nDiff (Ind - Small): $605.64\nIndividual: $1,414.50  Small Group: $808.86"
    = some ⟨"Shasta County", "CA", some (2829 / 2), some (40443 / 50), some (15141 / 25)⟩ := by decide

unseal Rat.add Rat.mul Rat.inv Rat.sub in
example : parse_tooltip "Travis County, TX Individual: $700.98 Small Group: $748.60"
    = some ⟨"Travis County", "TX", some (35049 / 50), some (3743 / 5), none⟩ := by decide

unseal Rat.add Rat.mul Rat.inv Rat.sub in
example : parse_tooltip "Shasta County, CA Diff (Ind – Small): $605.64 Individual: $1,414.50 Small Group: $808.86"
    = some ⟨"Shasta County", "CA", some (2829 / 2), some (40443 / 50), none⟩ := by decide

example : findNums "a, b, CA Diff x".data = [[','], [',']] := by decide
example : searchSimple "a, b, CA Diff x".data = some ⟨[' ', 'b'], ['C', 'A']⟩ := by decide
example : findNums "$$12 and 7.".data = [['1', '2'], ['7', '.']] := by decide
example : findNums "..5".data = [['5']] := by decide
example : searchSimple ", CA".data = none := by decide
example : searchSimple "Foo, CAx rest".data = some ⟨['F', 'o', 'o'], ['C', 'A']⟩ := by decide
example : (searchStrict (normWs "Shasta County, ca Diff (Ind - Small): $1.00 Individual: $2.00 Small Group: $3.00".data)).isSome = true := by decide

/-- The deduplication key `f"{data['county']}, {data['state']}"` used by both
scan loops in `scripts/scrape_ideon_map.py`. -/
def dedupKey (d : TooltipData) : String := d.county ++ ", " ++ d.state

/-- One iteration of the scan loops' bookkeeping: the accumulator is the pair
(`results`, `seen`); a sample whose key is already in `seen` is dropped,
otherwise it is appended to `results` and its key recorded. -/
def scanStep (acc : List TooltipData × List String) (d : TooltipData) :
    List TooltipData × List String :=
  if dedupKey d ∈ acc.2 then acc else (acc.1 ++ [d], dedupKey d :: acc.2)

/-- The deduplication behaviour shared by `scrape_svg_map` and
`scrape_canvas_map`, as a function of the sequence of successfully parsed
tooltip samples encountered during one scan (hovering and tooltip reading are
I/O; the `results`/`seen` state evolution is modelled exactly). -/
def dedupSamples (l : List TooltipData) : List TooltipData :=
  (l.foldl scanStep ([], [])).1

/-- One cached record of `county_data_raw.json` as read by `auto_verify.py`
(`n`/`st`/`i`/`s`/`d` short keys). -/
structure OurRecord where
  n : String
  st : String
  i : Option ℚ
  s : Option ℚ
  d : Option ℚ
deriving Repr, DecidableEq

/-- A live-scraped sample as `auto_verify.py`'s own tooltip parser produces
it. -/
structure WebSample where
  county : String
  state : String
  difference : Option ℚ
  individual : Option ℚ
  small_group : Option ℚ
deriving Repr, DecidableEq

/-- Python truthiness of an optional float: `None` and `0.0` are falsy. -/
def pyTruthy : Option ℚ → Bool
  | none => false
  | some q => q != 0

/-- The kinds of mismatch `auto_verify.verify` can count for one compared
pair. -/
inductive MismatchKind where
  | individualValue
  | smallGroupValue
  | notFound
deriving Repr, DecidableEq

/-- The per-field comparison in `auto_verify.verify`:
`if web_value and our_value:` then flag when `abs(web - our) > 0.01`. -/
def fieldFlagged (w o : Option ℚ) : Bool :=
  pyTruthy w && pyTruthy o && decide (|w.getD 0 - o.getD 0| > 1 / 100)

/-- The mismatches `auto_verify.verify` records for one scraped sample:
a missing expected record counts once as "not found"; otherwise the
individual and small-group fields are compared (the difference field is
not compared). -/
def pairMismatches (web : WebSample) (our : Option OurRecord) : List MismatchKind :=
  match our with
  | none => [MismatchKind.notFound]
  | some o =>
    (if fieldFlagged web.individual o.i then [MismatchKind.individualValue] else []) ++
    (if fieldFlagged web.small_group o.s then [MismatchKind.smallGroupValue] else [])

/-- One row of the upstream county JSON, with its short field names; every
field is optional because the scripts access them with `dict.get`. -/
structure RawRow where
  year : Option ℤ
  st : Option String
  age : Option ℤ
  lvl : Option String
  n : Option String
  f : Option String
  i : Option ℚ
  s : Option ℚ
  d : Option ℚ
deriving Repr, DecidableEq

/-- Table `STATE_NAMES` from `scripts/export_state_data.py`. -/
def STATE_NAMES : List (String × String) :=
  [("AL", "Alabama"), ("AK", "Alaska"), ("AZ", "Arizona"), ("AR", "Arkansas"),
   ("CA", "California"), ("CO", "Colorado"), ("CT", "Connecticut"), ("DE", "Delaware"),
   ("DC", "District of Columbia"), ("FL", "Florida"), ("GA", "Georgia"), ("HI", "Hawaii"),
   ("ID", "Idaho"), ("IL", "Illinois"), ("IN", "Indiana"), ("IA", "Iowa"),
   ("KS", "Kansas"), ("KY", "Kentucky"), ("LA", "Louisiana"), ("ME", "Maine"),
   ("MD", "Maryland"), ("MA", "Massachusetts"), ("MI", "Michigan"), ("MN", "Minnesota"),
   ("MS", "Mississippi"), ("MO", "Missouri"), ("MT", "Montana"), ("NE", "Nebraska"),
   ("NV", "Nevada"), ("NH", "New Hampshire"), ("NJ", "New Jersey"), ("NM", "New Mexico"),
   ("NY", "New York"), ("NC", "North Carolina"), ("ND", "North Dakota"), ("OH", "Ohio"),
   ("OK", "Oklahoma"), ("OR", "Oregon"), ("PA", "Pennsylvania"), ("RI", "Rhode Island"),
   ("SC", "South Carolina"), ("SD", "South Dakota"), ("TN", "Tennessee"), ("TX", "Texas"),
   ("UT", "Utah"), ("VT", "Vermont"), ("VA", "Virginia"), ("WA", "Washington"),
   ("WV", "West Virginia"), ("WI", "Wisconsin"), ("WY", "Wyoming"), ("PR", "Puerto Rico")]

/-- Python `str.capitalize()` (ASCII): first character upper-cased, the rest
lower-cased. -/
def pyCapitalize (s : String) : String :=
  match s.data with
  | [] => ""
  | c :: r => String.mk (c.toUpper :: r.map Char.toLower)

/-- Arithmetic mean (`statistics.mean`) over ℚ. -/
def listMean (l : List ℚ) : ℚ := l.sum / l.length

/-- Rounding to the nearest integer, ties to even — the rounding family of
Python's `round` (whose ties are resolved on the binary double; over ℚ the
tie rule is exact banker's rounding). -/
def roundHalfEven (q : ℚ) : ℤ :=
  let n := ⌊q⌋
  let f := q - n
  if f < 1 / 2 then n
  else if 1 / 2 < f then n + 1
  else if Even n then n else n + 1

/-- Python `round(x, 2)` over ℚ. -/
def round2 (q : ℚ) : ℚ := (roundHalfEven (q * 100) : ℚ) / 100

/-- One output row of `aggregate_by_state`. -/
structure StateRow where
  state_abbr : Option String
  state_name : Option String
  age : Option ℤ
  metal_tier : String
  individual_premium_avg : Option ℚ
  small_group_premium_avg : Option ℚ
  difference_avg : Option ℚ
  county_count : ℕ
  year : ℤ
deriving Repr, DecidableEq

/-- First-occurrence deduplication, modelling the key iteration order of a
Python `defaultdict`/`dict` (insertion order, first occurrence wins). -/
def firstDedup {α : Type} [DecidableEq α] (l : List α) : List α :=
  l.foldl (fun acc k => if k ∈ acc then acc else acc ++ [k]) []

/-- The grouping key `(row.get("st"), row.get("age"), row.get("lvl"))`. -/
def rowKey (r : RawRow) : Option String × Option ℤ × Option String := (r.st, r.age, r.lvl)

/-- The result dict built for one (state, age, metal) group inside the
aggregation loop of `aggregate_by_state`. -/
def aggRow (year : ℤ) (k : Option String × Option ℤ × Option String)
    (rows : List RawRow) : StateRow :=
  let individual_vals := rows.filterMap (fun r => r.i)
  let small_group_vals := rows.filterMap (fun r => r.s)
  let diff_vals := rows.filterMap (fun r => r.d)
  { state_abbr := k.1,
    state_name := match k.1 with
      | some st => some ((STATE_NAMES.lookup st).getD st)
      | none => none,
    age := k.2.1,
    metal_tier := match k.2.2 with
      | some m => if m.isEmpty then "" else pyCapitalize m
      | none => "",
    individual_premium_avg :=
      if individual_vals.isEmpty then none else some (round2 (listMean individual_vals)),
    small_group_premium_avg :=
      if small_group_vals.isEmpty then none else some (round2 (listMean small_group_vals)),
    difference_avg :=
      if diff_vals.isEmpty then none else some (round2 (listMean diff_vals)),
    county_count := rows.length,
    year := year }

/-- Function `aggregate_by_state` from `scripts/export_state_data.py`: filter to the
requested year (stored as an offset from 2000), group by (state, age, metal)
in first-occurrence order, and average each numeric field over its non-null
values only, rounding to 2 decimals; a field with no non-null values yields
`None`; `county_count` is the full size of the group. -/
def aggregate_by_state (data : List RawRow) (year : ℤ) : List StateRow :=
  let year_data := data.filter (fun r => r.year == some (year - 2000))
  let keys := firstDedup (year_data.map rowKey)
  keys.map (fun k => aggRow year k (year_data.filter (fun r => rowKey r == k)))

/-- The strategy dispatch of `scrape_map` (`scripts/scrape_ideon_map.py`,
detection and fallback), as a function of the two element counts and of what
each scan method would return. -/
def scrape_map_select (svg_paths canvas_elements : ℕ)
    (svgResults canvasResults : List TooltipData) : List TooltipData :=
  if svg_paths > 100 then svgResults
  else if canvas_elements > 0 then canvasResults
  else if svgResults.length < 50 then canvasResults else svgResults

/-- Lexicographic (code-point) strict order on character lists, as Python
compares strings. -/
def lexLt : List Char → List Char → Bool
  | [], [] => false
  | [], _ :: _ => true
  | _ :: _, [] => false
  | a :: as, b :: bs => if a < b then true else if b < a then false else lexLt as bs

/-- Python `<` on strings. -/
def strLtB (a b : String) : Bool := lexLt a.data b.data

/-- Python `<=` on strings. -/
def strLeB (a b : String) : Bool := !(strLtB b a)

/-- Stable insertion of `a` into an already sorted list: `a` goes after every
element that compares less-or-equal to it. -/
def insertLe {α : Type} (le : α → α → Bool) (a : α) : List α → List α
  | [] => [a]
  | b :: l => if le b a then b :: insertLe le a l else a :: b :: l

/-- Stable sort (insertion sort, processing the input left to right).  For a
total preorder there is exactly one stably sorted permutation, so this models
Python's `sorted` faithfully. -/
def stableSortBy {α : Type} (le : α → α → Bool) (l : List α) : List α :=
  l.foldl (fun acc a => insertLe le a acc) []

/-- Python `<=` on `(str, str)` tuples. -/
def pairLe (a b : String × String) : Bool :=
  strLtB a.1 b.1 || (a.1 == b.1 && strLeB a.2 b.2)

/-- Python `<=` on `(str, int, str)` tuples. -/
def tripleLe (a b : String × ℤ × String) : Bool :=
  strLtB a.1 b.1 || (a.1 == b.1 &&
    (decide (a.2.1 < b.2.1) || (a.2.1 == b.2.1 && strLeB a.2.2 b.2.2)))

/-- One row written by the scraper's `write_csv` (the dict built by the scan
loops: parsed tooltip fields plus the run's year/age/metal arguments). -/
structure ScrapeRow where
  county : String
  state : String
  individual_premium : Option ℚ
  small_group_premium : Option ℚ
  difference : Option ℚ
  year : ℤ
  age : ℤ
  metal : String
deriving Repr, DecidableEq

/-- Function `write_csv` from `scripts/scrape_ideon_map.py`.  The file side effect is
modelled by the result: `none` means the function returned before opening the
file (no content, not even a header row); `some rows` means a file consisting
of the header and exactly `rows` in order. -/
def write_csv (results : List ScrapeRow) : Option (List ScrapeRow) :=
  if results.isEmpty then none
  else some (stableSortBy
    (fun x y => pairLe (x.state, x.county) (y.state, y.county)) results)

/-- Table `FIPS_TO_STATE` from `scripts/export_county_data.py`. -/
def FIPS_TO_STATE : List (String × String) :=
  [("01", "Alabama"), ("02", "Alaska"), ("04", "Arizona"), ("05", "Arkansas"),
   ("06", "California"), ("08", "Colorado"), ("09", "Connecticut"), ("10", "Delaware"),
   ("11", "District of Columbia"), ("12", "Florida"), ("13", "Georgia"), ("15", "Hawaii"),
   ("16", "Idaho"), ("17", "Illinois"), ("18", "Indiana"), ("19", "Iowa"),
   ("20", "Kansas"), ("21", "Kentucky"), ("22", "Louisiana"), ("23", "Maine"),
   ("24", "Maryland"), ("25", "Massachusetts"), ("26", "Michigan"), ("27", "Minnesota"),
   ("28", "Mississippi"), ("29", "Missouri"), ("30", "Montana"), ("31", "Nebraska"),
   ("32", "Nevada"), ("33", "New Hampshire"), ("34", "New Jersey"), ("35", "New Mexico"),
   ("36", "New York"), ("37", "North Carolina"), ("38", "North Dakota"), ("39", "Ohio"),
   ("40", "Oklahoma"), ("41", "Oregon"), ("42", "Pennsylvania"), ("44", "Rhode Island"),
   ("45", "South Carolina"), ("46", "South Dakota"), ("47", "Tennessee"), ("48", "Texas"),
   ("49", "Utah"), ("50", "Vermont"), ("51", "Virginia"), ("53", "Washington"),
   ("54", "West Virginia"), ("55", "Wisconsin"), ("56", "Wyoming"), ("72", "Puerto Rico")]

/-- One row of the county-level CSV written by `export_counties_csv`. -/
structure CountyRow where
  fips : String
  county : String
  state_abbr : String
  state_name : String
  individual_premium : Option ℚ
  small_group_premium : Option ℚ
  difference : Option ℚ
  year : ℤ
  age : Option ℤ
  metal_tier : String
deriving Repr, DecidableEq

/-- The per-row dict built inside `export_counties_csv`'s writer loop. -/
def toCountyRow (r : RawRow) : CountyRow :=
  let fips := r.f.getD ""
  let state_fips := if 2 ≤ fips.length then String.mk (fips.data.take 2) else ""
  { fips := fips,
    county := r.n.getD "",
    state_abbr := r.st.getD "",
    state_name := (FIPS_TO_STATE.lookup state_fips).getD "",
    individual_premium := r.i,
    small_group_premium := r.s,
    difference := r.d,
    year := 2000 + r.year.getD 0,
    age := r.age,
    metal_tier := pyCapitalize (r.lvl.getD "") }

/-- Function `export_counties_csv` from `scripts/export_county_data.py`: the first
component models the file as in `write_csv`; the second is the returned row
count (`0` on the empty early return, otherwise `len(sorted_data)`). -/
def export_counties_csv (data : List RawRow) : Option (List CountyRow) × ℕ :=
  if data.isEmpty then (none, 0)
  else
    let sorted_data := stableSortBy
      (fun x y => pairLe (x.st.getD "", x.n.getD "") (y.st.getD "", y.n.getD "")) data
    (some (sorted_data.map toCountyRow), sorted_data.length)

/-- Function `export_states_csv` from `scripts/export_state_data.py`, modelled like
`export_counties_csv`. -/
def export_states_csv (data : List StateRow) : Option (List StateRow) × ℕ :=
  if data.isEmpty then (none, 0)
  else
    let sorted_data := stableSortBy
      (fun x y => tripleLe (x.state_abbr.getD "", x.age.getD 0, x.metal_tier)
        (y.state_abbr.getD "", y.age.getD 0, y.metal_tier)) data
    (some sorted_data, sorted_data.length)

lemma takeWhileAppAll {α : Type} {p : α → Bool} {a : List α} (b : List α)
    (h : ∀ c ∈ a, p c = true) : (a ++ b).takeWhile p = a ++ b.takeWhile p := by
  induction a with
  | nil => simp
  | cons x xs ih =>
    have hx : p x = true := h x (by simp)
    simp only [List.cons_append, List.takeWhile_cons_of_pos hx, List.cons.injEq, true_and]
    exact ih (fun c hc => h c (by simp [hc]))

lemma dropWhileAppAll {α : Type} {p : α → Bool} {a : List α} (b : List α)
    (h : ∀ c ∈ a, p c = true) : (a ++ b).dropWhile p = b.dropWhile p := by
  induction a with
  | nil => simp
  | cons x xs ih =>
    have hx : p x = true := h x (by simp)
    simp only [List.cons_append, List.dropWhile_cons_of_pos hx]
    exact ih (fun c hc => h c (by simp [hc]))

unseal Rat.add Rat.mul Rat.inv Rat.sub in
/-- C6: `parse_money` strips currency symbols and thousands separators and
parses the remainder as a signed decimal (`"$1,414.50"` ↦ 1414.50); empty or
unparsable input yields `none` — never `0` and, being a total function into
`Option ℚ`, never an exception.  The two quantified clauses state the
stripping laws: a `$` anywhere and a `,` anywhere are simply erased. -/
theorem parse_money_spec :
    parse_money "$1,414.50".data = some (2829 / 2) ∧
    parse_money "".data = none ∧
    parse_money "N/A".data = none ∧
    (∀ s t : List Char, parse_money (s ++ '$' :: t) = parse_money (s ++ t)) ∧
    (∀ s t : List Char, parse_money (s ++ ',' :: t) = parse_money (s ++ t)) := by
  have key : ∀ (c : Char), (c != ',' && c != '$') = false →
      ∀ s t : List Char, parse_money (s ++ c :: t) = parse_money (s ++ t) := by
    intro c hc s t
    have hfil : (s ++ c :: t).filter (fun c => c != ',' && c != '$')
        = (s ++ t).filter (fun c => c != ',' && c != '$') := by
      simp only [List.filter_append, List.filter_cons, hc]
      simp
    have hne : (s ++ c :: t).isEmpty = false := by cases s <;> simp
    by_cases h : (s ++ t).isEmpty
    · have hs : s = [] := by cases s <;> simp_all
      have ht : t = [] := by subst hs; cases t <;> simp_all
      subst hs; subst ht
      simp only [List.nil_append] at hfil ⊢
      simp [parse_money, hfil, pyStrip, pyFloat]
    · simp only [parse_money, hne, h, Bool.false_eq_true, if_false, hfil]
  refine ⟨by decide, by decide, by decide, key '$' (by decide), key ',' (by decide)⟩

/-- C8: strategy dispatch of `scrape_map` — SVG-path scan when more than 100
path elements are detected; otherwise the canvas grid scan when a canvas
element is present; otherwise the path scan is attempted first and its result
is kept exactly when it has at least 50 counties, the grid scan being used
when it has fewer. -/
theorem scrape_map_select_policy (nsvg ncanvas : ℕ)
    (svgR canvasR : List TooltipData) :
    (100 < nsvg → scrape_map_select nsvg ncanvas svgR canvasR = svgR) ∧
    (nsvg ≤ 100 → 0 < ncanvas → scrape_map_select nsvg ncanvas svgR canvasR = canvasR) ∧
    (nsvg ≤ 100 → ncanvas = 0 →
      ((svgR.length < 50 → scrape_map_select nsvg ncanvas svgR canvasR = canvasR) ∧
       (50 ≤ svgR.length → scrape_map_select nsvg ncanvas svgR canvasR = svgR))) := by
  unfold scrape_map_select
  refine ⟨fun h => if_pos h, fun h1 h2 => ?_, fun h1 h2 => ⟨fun h3 => ?_, fun h3 => ?_⟩⟩
  · rw [if_neg (by omega), if_pos h2]
  · rw [if_neg (by omega), if_neg (by omega), if_pos h3]
  · rw [if_neg (by omega), if_neg (by omega), if_neg (by omega)]

theorem scrape_map_select_policy_w :
    scrape_map_select 101 1 [⟨"a", "AA", none, none, none⟩] [] = [⟨"a", "AA", none, none, none⟩] ∧
    scrape_map_select 100 1 [⟨"a", "AA", none, none, none⟩] [] = [] ∧
    scrape_map_select 100 0 [⟨"a", "AA", none, none, none⟩] [] = [] := by
  refine ⟨(scrape_map_select_policy 101 1 _ _).1 (by omega),
    (scrape_map_select_policy 100 1 _ _).2.1 (by omega) (by omega),
    ((scrape_map_select_policy 100 0 _ _).2.2 (by omega) rfl).1 (by simp)⟩

/-- Counterexample to C4 as stated: both sides non-null (`isSome`) with a
difference far above the tolerance, yet no mismatch is flagged, because the
expected value 0.0 is falsy in Python. -/
theorem c4_counterexample :
    (some (5 : ℚ)).isSome = true ∧ (some (0 : ℚ)).isSome = true ∧
    |(5 : ℚ) - 0| > 1 / 100 ∧ fieldFlagged (some 5) (some 0) = false := by
  refine ⟨rfl, rfl, by norm_num, ?_⟩
  simp [fieldFlagged, pyTruthy]

/-- C4 (amended): `auto_verify.verify` flags a field mismatch exactly when
both sides hold a truthy value — non-null AND nonzero, since Python treats
`0.0` like an absent value here — and the absolute difference strictly
exceeds 0.01 (so a difference of exactly 0.01 is not flagged); a scraped key
with no expected counterpart yields exactly the distinct "not found"
mismatch. -/
theorem verify_mismatch_rule (w o : Option ℚ) (web : WebSample) (oRec : OurRecord) :
    (fieldFlagged w o = true ↔
      ∃ a b, w = some a ∧ o = some b ∧ a ≠ 0 ∧ b ≠ 0 ∧ |a - b| > 1 / 100) ∧
    pairMismatches web none = [MismatchKind.notFound] ∧
    (MismatchKind.individualValue ∈ pairMismatches web (some oRec) ↔
      fieldFlagged web.individual oRec.i = true) ∧
    (MismatchKind.smallGroupValue ∈ pairMismatches web (some oRec) ↔
      fieldFlagged web.small_group oRec.s = true) ∧
    MismatchKind.notFound ∉ pairMismatches web (some oRec) := by
  refine ⟨?_, rfl, ?_, ?_, ?_⟩
  · constructor
    · intro h
      match w, o with
      | some a, some b =>
        obtain ⟨⟨ha, hb⟩, hab⟩ : (¬a = 0 ∧ ¬b = 0) ∧ (100 : ℚ)⁻¹ < |a - b| := by
          simpa [fieldFlagged, pyTruthy] using h
        exact ⟨a, b, rfl, rfl, ha, hb, by rwa [gt_iff_lt, one_div]⟩
      | none, _ => simp [fieldFlagged, pyTruthy] at h
      | some a, none => simp [fieldFlagged, pyTruthy] at h
    · rintro ⟨a, b, rfl, rfl, ha, hb, hab⟩
      have hab' : (100 : ℚ)⁻¹ < |a - b| := by rwa [gt_iff_lt, one_div] at hab
      simp [fieldFlagged, pyTruthy, ha, hb, hab']
  · simp only [pairMismatches]
    by_cases h1 : fieldFlagged web.individual oRec.i <;>
      by_cases h2 : fieldFlagged web.small_group oRec.s <;> simp [h1, h2]
  · simp only [pairMismatches]
    by_cases h1 : fieldFlagged web.individual oRec.i <;>
      by_cases h2 : fieldFlagged web.small_group oRec.s <;> simp [h1, h2]
  · simp only [pairMismatches]
    by_cases h1 : fieldFlagged web.individual oRec.i <;>
      by_cases h2 : fieldFlagged web.small_group oRec.s <;> simp [h1, h2]

/-- C9: in `auto_verify.verify`'s field comparison a value of exactly 0.0 on
either side behaves like an absent value — no value mismatch is reported on
that field, whatever the other side holds. -/
theorem verify_zero_is_absent (web : WebSample) (o : OurRecord) :
    ((web.individual = some 0 ∨ o.i = some 0) →
      MismatchKind.individualValue ∉ pairMismatches web (some o)) ∧
    ((web.small_group = some 0 ∨ o.s = some 0) →
      MismatchKind.smallGroupValue ∉ pairMismatches web (some o)) := by
  constructor
  · intro h
    have hf : fieldFlagged web.individual o.i = false := by
      rcases h with h | h <;> simp [fieldFlagged, pyTruthy, h]
    simp only [pairMismatches, hf]
    by_cases h2 : fieldFlagged web.small_group o.s <;> simp [h2]
  · intro h
    have hf : fieldFlagged web.small_group o.s = false := by
      rcases h with h | h <;> simp [fieldFlagged, pyTruthy, h]
    simp only [pairMismatches, hf]
    by_cases h2 : fieldFlagged web.individual o.i <;> simp [h2]

theorem verify_zero_is_absent_w :
    MismatchKind.individualValue ∉
      pairMismatches ⟨"Travis County", "TX", none, some 0, none⟩
        (some ⟨"Travis County", "TX", some 5, none, none⟩) :=
  (verify_zero_is_absent ⟨"Travis County", "TX", none, some 0, none⟩
    ⟨"Travis County", "TX", some 5, none, none⟩).1 (Or.inl rfl)

theorem verify_mismatch_rule_w :
    fieldFlagged (some 1) (some 2) = true ∧
    pairMismatches ⟨"a", "AA", none, none, none⟩ none = [MismatchKind.notFound] :=
  ⟨(verify_mismatch_rule (some 1) (some 2) ⟨"a", "AA", none, none, none⟩
      ⟨"a", "AA", none, none, none⟩).1.mpr
    ⟨1, 2, rfl, rfl, by norm_num, by norm_num, by norm_num⟩,
   (verify_mismatch_rule (some 1) (some 2) ⟨"a", "AA", none, none, none⟩
      ⟨"a", "AA", none, none, none⟩).2.1⟩

lemma insertLe_length {α : Type} (le : α → α → Bool) (a : α) (l : List α) :
    (insertLe le a l).length = l.length + 1 := by
  induction l with
  | nil => rfl
  | cons b l ih =>
    simp only [insertLe]
    by_cases h : le b a <;> simp [h, ih]

lemma stableSortBy_length {α : Type} (le : α → α → Bool) (l : List α) :
    (stableSortBy le l).length = l.length := by
  suffices h : ∀ acc : List α,
      (l.foldl (fun acc a => insertLe le a acc) acc).length = acc.length + l.length by
    simpa using h []
  induction l with
  | nil => intro acc; simp
  | cons x xs ih =>
    intro acc
    simp only [List.foldl_cons, ih, insertLe_length, List.length_cons]
    omega

/-- C10: on an empty record list each CSV writer returns before opening its
file — no content and no header are produced, and the county/state exporters
report a written-row count of 0; on a non-empty list the file is written and
the reported count equals the input length. -/
theorem csv_writers_empty_and_count :
    write_csv [] = none ∧
    export_counties_csv [] = (none, 0) ∧
    export_states_csv [] = (none, 0) ∧
    (∀ l : List ScrapeRow, l ≠ [] → (write_csv l).isSome = true) ∧
    (∀ l : List RawRow, l ≠ [] →
      (export_counties_csv l).1.isSome = true ∧ (export_counties_csv l).2 = l.length) ∧
    (∀ l : List StateRow, l ≠ [] →
      (export_states_csv l).1.isSome = true ∧ (export_states_csv l).2 = l.length) := by
  refine ⟨rfl, rfl, rfl, ?_, ?_, ?_⟩
  · intro l hl
    simp [write_csv, List.isEmpty_iff, hl]
  · intro l hl
    constructor
    · simp [export_counties_csv, List.isEmpty_iff, hl]
    · simp [export_counties_csv, List.isEmpty_iff, hl, stableSortBy_length]
  · intro l hl
    constructor
    · simp [export_states_csv, List.isEmpty_iff, hl]
    · simp [export_states_csv, List.isEmpty_iff, hl, stableSortBy_length]

theorem csv_writers_empty_and_count_w :
    ((write_csv [⟨"Travis County", "TX", some 700, some 748, none, 2026, 50, "gold"⟩]).isSome = true) ∧
    (export_counties_csv [⟨some 26, some "TX", some 50, some "gold", some "Travis County",
        some "48453", some 700, some 748, some (-48)⟩]).2 = 1 ∧
    (export_states_csv [⟨some "TX", some "Texas", some 50, "Gold", some 700, some 748,
        none, 3, 2026⟩]).2 = 1 :=
  ⟨(csv_writers_empty_and_count.2.2.2.1 _ (by simp)),
   (csv_writers_empty_and_count.2.2.2.2.1 _ (by simp)).2,
   (csv_writers_empty_and_count.2.2.2.2.2 _ (by simp)).2⟩

/-- C2: when the strict pattern fails but the lenient county/state pattern
matches, `parse_tooltip` collects the dollar-like numeric tokens of the whole
(whitespace-normalized) text in order; with at least two tokens it returns a
record assigning the parsed second-to-last token as the individual premium and
the parsed last token as the small-group premium, and assigning the parsed
first token as the difference exactly when at least three tokens exist (with
exactly two tokens the difference is absent); with fewer than two tokens it
returns nothing. -/
theorem parse_tooltip_fallback (t : String) (g : SimpleGroups)
    (hne : t ≠ "")
    (hstrict : searchStrict (normWs t.data) = none)
    (hsimple : searchSimple (normWs t.data) = some g) :
    parse_tooltip t =
      (if 2 ≤ (findNums (normWs t.data)).length then
        some ⟨String.mk (pyStrip g.county), String.mk (pyStrip g.state),
          parse_money ((findNums (normWs t.data)).getD
            ((findNums (normWs t.data)).length - 2) []),
          parse_money ((findNums (normWs t.data)).getD
            ((findNums (normWs t.data)).length - 1) []),
          if 3 ≤ (findNums (normWs t.data)).length then
            parse_money ((findNums (normWs t.data)).getD 0 [])
          else none⟩
      else none) := by
  unfold parse_tooltip
  rw [if_neg hne]
  simp only [hstrict, hsimple]
  by_cases h : 2 ≤ (findNums (normWs t.data)).length
  · have h1 : 1 ≤ (findNums (normWs t.data)).length := by omega
    simp [h, h1]
  · simp [h]

unseal Rat.add Rat.mul Rat.inv Rat.sub in
theorem parse_tooltip_fallback_w :
    parse_tooltip "Travis County, TX Individual: $700.98 Small Group: $748.60"
      = some ⟨"Travis County", "TX", some (35049 / 50), some (3743 / 5), none⟩ := by
  have h := parse_tooltip_fallback
    "Travis County, TX Individual: $700.98 Small Group: $748.60"
    ⟨['T', 'r', 'a', 'v', 'i', 's', ' ', 'C', 'o', 'u', 'n', 't', 'y'], ['T', 'X']⟩
    (by decide) (by decide) (by decide)
  rw [h]; decide

unseal Rat.add Rat.mul Rat.inv Rat.sub in
/-- C7: the claim is that the strict pattern accepts an en dash (U+2013)
between "Ind" and "Small" just as it accepts an ASCII hyphen.  It does not:
the compiled character class holds the bytes of a double-decoded en dash
(`â`, `€`, `“`), so a true en dash falls through to the lenient branch, where
the stray comma token from `"<county>,"` becomes the first numeric token and
the difference comes out absent instead of 605.64.  This theorem evaluates
both variants: identical inputs up to hyphen versus en dash produce different
records. -/
theorem strict_endash_divergence :
    parse_tooltip "Shasta County, CA Diff (Ind - Small): $605.64 Individual: $1,414.50 Small Group: $808.86"
      = some ⟨"Shasta County", "CA", some (2829 / 2), some (40443 / 50), some (15141 / 25)⟩ ∧
    parse_tooltip "Shasta County, CA Diff (Ind – Small): $605.64 Individual: $1,414.50 Small Group: $808.86"
      = some ⟨"Shasta County", "CA", some (2829 / 2), some (40443 / 50), none⟩ ∧
    searchStrict (normWs "Shasta County, CA Diff (Ind – Small): $605.64 Individual: $1,414.50 Small Group: $808.86".data)
      = none := by
  refine ⟨by decide, by decide, by decide⟩

lemma foldl_seen_mem (l : List TooltipData) :
    ∀ (acc : List TooltipData × List String) (k : String),
      (k ∈ (l.foldl scanStep acc).2 ↔ k ∈ acc.2 ∨ k ∈ l.map dedupKey) := by
  induction l with
  | nil => intro acc k; simp
  | cons x xs ih =>
    intro acc k
    rw [List.foldl_cons, ih]
    have hstep : k ∈ (scanStep acc x).2 ↔ (k ∈ acc.2 ∨ k = dedupKey x) := by
      unfold scanStep
      by_cases hx : dedupKey x ∈ acc.2
      · rw [if_pos hx]
        exact ⟨Or.inl, fun h => by rcases h with h | rfl; exact h; exact hx⟩
      · rw [if_neg hx]; simp [or_comm]
    rw [hstep]
    simp only [List.map_cons, List.mem_cons]
    tauto

lemma foldl_results_extend (l : List TooltipData) :
    ∀ acc : List TooltipData × List String,
      ∃ s, (l.foldl scanStep acc).1 = acc.1 ++ s ∧ s.Sublist l := by
  induction l with
  | nil => intro acc; exact ⟨[], by simp, by simp⟩
  | cons x xs ih =>
    intro acc
    rw [List.foldl_cons]
    by_cases hx : dedupKey x ∈ acc.2
    · have hstep : scanStep acc x = acc := by simp [scanStep, hx]
      rw [hstep]
      obtain ⟨s, hs, hsub⟩ := ih acc
      exact ⟨s, hs, hsub.trans (List.sublist_cons_self x xs)⟩
    · have hstep : scanStep acc x = (acc.1 ++ [x], dedupKey x :: acc.2) := by
        simp [scanStep, hx]
      rw [hstep]
      obtain ⟨s, hs, hsub⟩ := ih (acc.1 ++ [x], dedupKey x :: acc.2)
      refine ⟨x :: s, ?_, hsub.cons₂ x⟩
      rw [hs]; simp

lemma foldl_nodup (l : List TooltipData) :
    ∀ acc : List TooltipData × List String, (acc.1.map dedupKey).Nodup →
      (∀ k ∈ acc.1.map dedupKey, k ∈ acc.2) →
      ((l.foldl scanStep acc).1.map dedupKey).Nodup := by
  induction l with
  | nil => intro acc h _; simpa using h
  | cons x xs ih =>
    intro acc hnd hsub
    rw [List.foldl_cons]
    by_cases hx : dedupKey x ∈ acc.2
    · have hstep : scanStep acc x = acc := by simp [scanStep, hx]
      rw [hstep]; exact ih acc hnd hsub
    · have hstep : scanStep acc x = (acc.1 ++ [x], dedupKey x :: acc.2) := by
        simp [scanStep, hx]
      rw [hstep]
      have hnx : dedupKey x ∉ acc.1.map dedupKey := fun hmem => hx (hsub _ hmem)
      apply ih
      · simp only [List.map_append, List.map_cons, List.map_nil]
        rw [List.nodup_append]
        refine ⟨hnd, by simp, ?_⟩
        intro a ha hb
        rw [List.mem_singleton] at hb
        exact hnx (hb ▸ ha)
      · intro k hk
        simp only [List.map_append, List.map_cons, List.map_nil, List.mem_append,
          List.mem_singleton] at hk
        rcases hk with hk | rfl
        · exact List.mem_cons_of_mem _ (hsub k hk)
        · exact List.mem_cons_self _ _

lemma foldl_first (l : List TooltipData) :
    ∀ (acc : List TooltipData × List String) (d : TooltipData), d ∈ l →
      dedupKey d ∉ acc.2 →
      ∃ e, l.find? (fun x => dedupKey x == dedupKey d) = some e ∧
        e ∈ (l.foldl scanStep acc).1 := by
  induction l with
  | nil => intro _ _ h; simp at h
  | cons x xs ih =>
    intro acc d hd hns
    rw [List.foldl_cons]
    by_cases hkey : dedupKey x = dedupKey d
    · have hfind : (x :: xs).find? (fun y => dedupKey y == dedupKey d) = some x := by
        rw [List.find?_cons_of_pos]
        simpa using hkey
      refine ⟨x, hfind, ?_⟩
      have hx : dedupKey x ∉ acc.2 := by rw [hkey]; exact hns
      have hstep : scanStep acc x = (acc.1 ++ [x], dedupKey x :: acc.2) := by
        simp [scanStep, hx]
      rw [hstep]
      obtain ⟨s, hs, -⟩ := foldl_results_extend xs (acc.1 ++ [x], dedupKey x :: acc.2)
      rw [hs]; simp
    · have hxd : d ≠ x := fun h => hkey (by rw [h])
      have hd' : d ∈ xs := by
        rcases List.mem_cons.1 hd with h | h
        · exact absurd h hxd
        · exact h
      have hfind : (x :: xs).find? (fun y => dedupKey y == dedupKey d)
          = xs.find? (fun y => dedupKey y == dedupKey d) := by
        rw [List.find?_cons_of_neg]
        simpa using hkey
      have hns' : dedupKey d ∉ (scanStep acc x).2 := by
        unfold scanStep
        by_cases hx : dedupKey x ∈ acc.2
        · rw [if_pos hx]; exact hns
        · rw [if_neg hx]
          simp only [List.mem_cons, not_or]
          exact ⟨fun h => hkey h.symm, hns⟩
      obtain ⟨e, he, hmem⟩ := ih (scanStep acc x) d hd' hns'
      exact ⟨e, by rw [hfind]; exact he, hmem⟩

lemma foldl_const_of_seen (ds : List TooltipData) :
    ∀ acc : List TooltipData × List String,
      (∀ x ∈ ds, dedupKey x ∈ acc.2) → ds.foldl scanStep acc = acc := by
  induction ds with
  | nil => intro acc _; rfl
  | cons x xs ih =>
    intro acc h
    rw [List.foldl_cons]
    have hstep : scanStep acc x = acc := by simp [scanStep, h x (by simp)]
    rw [hstep]
    exact ih acc (fun y hy => h y (by simp [hy]))

lemma scanStep_seen_self (acc : List TooltipData × List String) (d : TooltipData) :
    dedupKey d ∈ (scanStep acc d).2 := by
  unfold scanStep
  by_cases h : dedupKey d ∈ acc.2
  · rw [if_pos h]; exact h
  · rw [if_neg h]; simp

lemma dedup_drop_dups (l : List TooltipData) (d : TooltipData) (ds : List TooltipData)
    (hds : ∀ x ∈ ds, dedupKey x = dedupKey d) :
    dedupSamples (l ++ d :: ds) = dedupSamples (l ++ [d]) := by
  unfold dedupSamples
  rw [List.foldl_append, List.foldl_append, List.foldl_cons, List.foldl_cons, List.foldl_nil]
  rw [foldl_const_of_seen ds (scanStep (l.foldl scanStep ([], [])) d) ?_]
  intro x hx
  rw [hds x hx]
  exact scanStep_seen_self _ d

lemma dedup_append_new (l : List TooltipData) (d : TooltipData)
    (hnd : dedupKey d ∉ l.map dedupKey) :
    dedupSamples (l ++ [d]) = dedupSamples l ++ [d] := by
  unfold dedupSamples
  rw [List.foldl_append, List.foldl_cons, List.foldl_nil]
  have hns : dedupKey d ∉ (l.foldl scanStep ([], [])).2 := by
    rw [foldl_seen_mem]
    simpa using hnd
  simp [scanStep, hns]

/-- C5: within one scan, at most one sample per `"county, state"` key enters
the output (its keys are pairwise distinct); the output is a subsequence of
the input, so first-discovery order is preserved; the survivor for each key is
the first input occurrence, with its values; appending one fresh-keyed sample
followed by any number of same-keyed duplicates grows the output by exactly
one, the duplicates being discarded silently. -/
theorem dedup_first_wins (l : List TooltipData) :
    ((dedupSamples l).map dedupKey).Nodup ∧
    (dedupSamples l).Sublist l ∧
    (∀ d ∈ l, ∃ e, l.find? (fun x => dedupKey x == dedupKey d) = some e ∧
      e ∈ dedupSamples l) ∧
    (∀ d ds, (∀ x ∈ ds, dedupKey x = dedupKey d) →
      dedupSamples (l ++ d :: ds) = dedupSamples (l ++ [d])) ∧
    (∀ d ds, dedupKey d ∉ l.map dedupKey → (∀ x ∈ ds, dedupKey x = dedupKey d) →
      (dedupSamples (l ++ d :: ds)).length = (dedupSamples l).length + 1) := by
  refine ⟨foldl_nodup l ([], []) (by simp) (by simp), ?_, ?_, ?_, ?_⟩
  · obtain ⟨s, hs, hsub⟩ := foldl_results_extend l ([], [])
    unfold dedupSamples
    rw [hs]
    simpa using hsub
  · intro d hd
    exact foldl_first l ([], []) d hd (by simp)
  · intro d ds hds
    exact dedup_drop_dups l d ds hds
  · intro d ds hnd hds
    rw [dedup_drop_dups l d ds hds, dedup_append_new l d hnd]
    simp

theorem dedup_first_wins_w :
    (dedupSamples [⟨"Shasta County", "CA", some 3, none, none⟩,
      ⟨"Travis County", "TX", some 1, none, none⟩,
      ⟨"Travis County", "TX", some 2, none, none⟩]).length = 2 ∧
    dedupSamples [⟨"Travis County", "TX", some 1, none, none⟩,
      ⟨"Travis County", "TX", some 2, none, none⟩]
      = [⟨"Travis County", "TX", some 1, none, none⟩] := by
  constructor
  · have h := (dedup_first_wins [⟨"Shasta County", "CA", some 3, none, none⟩]).2.2.2.2
      ⟨"Travis County", "TX", some 1, none, none⟩
      [⟨"Travis County", "TX", some 2, none, none⟩] (by decide) (by decide)
    have h2 : (dedupSamples [⟨"Shasta County", "CA", some 3, none, none⟩]).length = 1 := by
      decide
    rw [h2] at h
    simpa using h
  · decide

/-- The records of one plan year carrying one (state, age, metal) key — the
group over which `aggregate_by_state` averages. -/
def yearGroup (data : List RawRow) (year : ℤ)
    (k : Option String × Option ℤ × Option String) : List RawRow :=
  (data.filter (fun r => r.year == some (year - 2000))).filter (fun r => rowKey r == k)

lemma mem_firstDedup {α : Type} [DecidableEq α] (l : List α) (a : α) :
    a ∈ firstDedup l ↔ a ∈ l := by
  suffices h : ∀ acc : List α,
      (a ∈ l.foldl (fun acc k => if k ∈ acc then acc else acc ++ [k]) acc
        ↔ a ∈ acc ∨ a ∈ l) by
    simpa [firstDedup] using h []
  induction l with
  | nil => intro acc; simp
  | cons x xs ih =>
    intro acc
    rw [List.foldl_cons]
    by_cases hx : x ∈ acc
    · rw [if_pos hx, ih]
      simp only [List.mem_cons]
      constructor
      · rintro (h | h)
        · exact Or.inl h
        · exact Or.inr (Or.inr h)
      · rintro (h | rfl | h)
        · exact Or.inl h
        · exact Or.inl hx
        · exact Or.inr h
    · rw [if_neg hx, ih]
      simp only [List.mem_append, List.mem_singleton, List.mem_cons]
      tauto

/-- C3: for every input list and year, `aggregate_by_state` produces, for each
(state, age, metal) key with a nonempty group among the year's records, a row
whose three averages are each the 2-decimal-rounded arithmetic mean of that
field's non-null values only (absent — not zero and not an error — when the
group has no non-null value for the field), and whose `county_count` is the
group size; conversely every output row is the aggregation of such a nonempty
group. -/
theorem aggregate_by_state_spec (data : List RawRow) (year : ℤ)
    (k : Option String × Option ℤ × Option String) :
    (yearGroup data year k ≠ [] →
      ∃ row ∈ aggregate_by_state data year,
        row.state_abbr = k.1 ∧ row.age = k.2.1 ∧
        row.individual_premium_avg =
          (if ((yearGroup data year k).filterMap (fun r => r.i)).isEmpty then none
           else some (round2 (listMean ((yearGroup data year k).filterMap (fun r => r.i))))) ∧
        row.small_group_premium_avg =
          (if ((yearGroup data year k).filterMap (fun r => r.s)).isEmpty then none
           else some (round2 (listMean ((yearGroup data year k).filterMap (fun r => r.s))))) ∧
        row.difference_avg =
          (if ((yearGroup data year k).filterMap (fun r => r.d)).isEmpty then none
           else some (round2 (listMean ((yearGroup data year k).filterMap (fun r => r.d))))) ∧
        row.county_count = (yearGroup data year k).length ∧
        row.year = year) ∧
    (∀ row ∈ aggregate_by_state data year,
      ∃ k', yearGroup data year k' ≠ [] ∧ row = aggRow year k' (yearGroup data year k')) := by
  constructor
  · intro hne
    obtain ⟨r, hr⟩ := List.exists_mem_of_ne_nil _ hne
    rw [yearGroup, List.mem_filter] at hr
    obtain ⟨hry, hrk⟩ := hr
    have hk : k ∈ (data.filter (fun r => r.year == some (year - 2000))).map rowKey := by
      rw [List.mem_map]
      exact ⟨r, hry, by simpa using hrk⟩
    refine ⟨aggRow year k (yearGroup data year k), ?_, rfl, rfl, rfl, rfl, rfl, rfl, rfl⟩
    unfold aggregate_by_state
    rw [List.mem_map]
    exact ⟨k, (mem_firstDedup _ _).2 hk, rfl⟩
  · intro row hrow
    unfold aggregate_by_state at hrow
    rw [List.mem_map] at hrow
    obtain ⟨k', hk', hrw⟩ := hrow
    rw [mem_firstDedup, List.mem_map] at hk'
    obtain ⟨r, hr, hrk⟩ := hk'
    refine ⟨k', ?_, hrw.symm⟩
    apply List.ne_nil_of_mem (a := r)
    rw [yearGroup, List.mem_filter]
    exact ⟨hr, by simpa using hrk⟩

unseal Rat.add Rat.mul Rat.inv Rat.sub in
theorem aggregate_by_state_spec_w :
    ∃ row ∈ aggregate_by_state
      [⟨some 26, some "TX", some 50, some "gold", some "A", none, some 100, some 200, none⟩,
       ⟨some 26, some "TX", some 50, some "gold", some "B", none, none, some 300, none⟩]
      2026,
      row.individual_premium_avg = some 100 ∧
      row.small_group_premium_avg = some 250 ∧
      row.county_count = 2 := by
  obtain ⟨row, hmem, hst, hage, hi, hs, hd, hc, hy⟩ :=
    (aggregate_by_state_spec
      [⟨some 26, some "TX", some 50, some "gold", some "A", none, some 100, some 200, none⟩,
       ⟨some 26, some "TX", some 50, some "gold", some "B", none, none, some 300, none⟩]
      2026 (some "TX", some 50, some "gold")).1 (by decide)
  refine ⟨row, hmem, ?_, ?_, ?_⟩
  · rw [hi]; decide
  · rw [hs]; decide
  · rw [hc]; decide

lemma upper_not_ws {c : Char} (h : 'A' ≤ c) : c.isWhitespace = false := by
  have h2 : c ≠ ' ' := by rintro rfl; exact absurd h (by decide)
  have h3 : c ≠ '\t' := by rintro rfl; exact absurd h (by decide)
  have h4 : c ≠ '\r' := by rintro rfl; exact absurd h (by decide)
  have h5 : c ≠ '\n' := by rintro rfl; exact absurd h (by decide)
  simp [Char.isWhitespace, h2, h3, h4, h5]

lemma dc_not_ws {c : Char} (h : c.isDigit = true ∨ c = ',') : c.isWhitespace = false := by
  have h2 : c ≠ ' ' := by rintro rfl; rcases h with h | h <;> simp at h
  have h3 : c ≠ '\t' := by rintro rfl; rcases h with h | h <;> simp at h
  have h4 : c ≠ '\r' := by rintro rfl; rcases h with h | h <;> simp at h
  have h5 : c ≠ '\n' := by rintro rfl; rcases h with h | h <;> simp at h
  simp [Char.isWhitespace, h2, h3, h4, h5]

lemma digit_not_ws {c : Char} (h : c.isDigit = true) : c.isWhitespace = false :=
  dc_not_ws (Or.inl h)

lemma moneyC_dc {c : Char} (h : c.isDigit = true ∨ c = ',') : isMoneyC c = true := by
  rcases h with h | rfl
  · simp [isMoneyC, h]
  · simp [isMoneyC]

lemma moneyC_digit {c : Char} (h : c.isDigit = true) : isMoneyC c = true :=
  moneyC_dc (Or.inl h)

lemma digit_ne_comma {c : Char} (h : c.isDigit = true) : c ≠ ',' := by
  rintro rfl; simp at h

lemma digit_ne_dollar {c : Char} (h : c.isDigit = true) : c ≠ '$' := by
  rintro rfl; simp at h

lemma digit_ne_plus {c : Char} (h : c.isDigit = true) : c ≠ '+' := by
  rintro rfl; simp at h

lemma digit_ne_minus {c : Char} (h : c.isDigit = true) : c ≠ '-' := by
  rintro rfl; simp at h

lemma dropWhileEqSelf {α : Type} {p : α → Bool} {l : List α}
    (h : ∀ c ∈ l, p c = false) : l.dropWhile p = l := by
  cases l with
  | nil => rfl
  | cons x xs =>
    have hx : p x = false := h x (by simp)
    exact List.dropWhile_cons_of_neg (by simp [hx])

lemma pyStripEqSelf {l : List Char} (h : ∀ c ∈ l, c.isWhitespace = false) :
    pyStrip l = l := by
  unfold pyStrip
  rw [dropWhileEqSelf h, dropWhileEqSelf (by intro c hc; exact h c (List.mem_reverse.1 hc)),
    List.reverse_reverse]

/-- The exact rational denoted by a money group `<digits-and-commas>.<d1><d2>`
of the strict tooltip pattern (two decimal places, thousands separators
ignored). -/
def moneyVal (ds : List Char) (c1 c2 : Char) : ℚ :=
  (digitsVal (ds.filter Char.isDigit) : ℚ) + (digitsVal [c1, c2] : ℚ) / 100

lemma pyFloatUnsigned_intFrac (ds : List Char) (c1 c2 : Char)
    (hds : ∀ c ∈ ds, c.isDigit = true) (h1 : c1.isDigit = true) (h2 : c2.isDigit = true) :
    pyFloatUnsigned (ds ++ ['.', c1, c2])
      = some ((digitsVal ds : ℚ) + (digitsVal [c1, c2] : ℚ) / 100) := by
  unfold pyFloatUnsigned
  rw [takeWhileAppAll _ hds, dropWhileAppAll _ hds]
  rw [List.takeWhile_cons_of_neg (by decide), List.dropWhile_cons_of_neg (by decide)]
  simp only [List.append_nil, pyFloatTail, if_pos rfl]
  rw [List.takeWhile_cons_of_pos h1, List.takeWhile_cons_of_pos h2]
  rw [List.dropWhile_cons_of_pos h1, List.dropWhile_cons_of_pos h2]
  simp only [List.takeWhile_nil, List.dropWhile_nil, List.isEmpty_cons,
    Bool.and_false, Bool.false_eq_true, if_false]
  simp only [expVal]
  norm_num

lemma pyFloat_intFrac (ds : List Char) (c1 c2 : Char)
    (hds : ∀ c ∈ ds, c.isDigit = true) (h1 : c1.isDigit = true) (h2 : c2.isDigit = true) :
    pyFloat (ds ++ ['.', c1, c2])
      = some ((digitsVal ds : ℚ) + (digitsVal [c1, c2] : ℚ) / 100) := by
  cases ds with
  | nil =>
    rw [show pyFloat ([] ++ ['.', c1, c2]) = pyFloatUnsigned ['.', c1, c2] from rfl]
    exact pyFloatUnsigned_intFrac [] c1 c2 (by simp) h1 h2
  | cons d ds' =>
    have hd : d.isDigit = true := hds d (by simp)
    have hds' : ∀ c ∈ ds', c.isDigit = true := fun c hc => hds c (by simp [hc])
    rw [show (d :: ds') ++ ['.', c1, c2] = d :: (ds' ++ ['.', c1, c2]) from rfl]
    simp only [pyFloat]
    rw [if_neg (digit_ne_plus hd), if_neg (digit_ne_minus hd)]
    exact pyFloatUnsigned_intFrac (d :: ds') c1 c2 hds h1 h2

lemma parse_money_group (dd : List Char) (d1 d2 : Char)
    (hdd : ∀ c ∈ dd, c.isDigit = true ∨ c = ',')
    (h1 : d1.isDigit = true) (h2 : d2.isDigit = true) :
    parse_money (dd ++ ['.', d1, d2]) = some (moneyVal dd d1 d2) := by
  have hne : (dd ++ ['.', d1, d2]).isEmpty = false := by cases dd <;> simp
  unfold parse_money
  rw [hne]
  simp only [Bool.false_eq_true, if_false]
  have hfil : (dd ++ ['.', d1, d2]).filter (fun c => c != ',' && c != '$')
      = dd.filter Char.isDigit ++ ['.', d1, d2] := by
    rw [List.filter_append]
    congr 1
    · apply List.filter_congr
      intro c hc
      rcases hdd c hc with h | rfl
      · simp [digit_ne_comma h, digit_ne_dollar h, h]
      · simp
    · simp [List.filter_cons, digit_ne_comma h1, digit_ne_dollar h1,
        digit_ne_comma h2, digit_ne_dollar h2]
  rw [hfil]
  have hnws : ∀ c ∈ dd.filter Char.isDigit ++ ['.', d1, d2], c.isWhitespace = false := by
    intro c hc
    rcases List.mem_append.1 hc with hc | hc
    · exact digit_not_ws (List.of_mem_filter hc)
    · simp only [List.mem_cons, List.mem_singleton] at hc
      rcases hc with rfl | rfl | hc
      · decide
      · exact digit_not_ws h1
      · simp only [List.mem_cons, List.not_mem_nil, or_false] at hc
        subst hc
        exact digit_not_ws h2
  rw [pyStripEqSelf hnws]
  rw [pyFloat_intFrac _ _ _ (fun c hc => List.of_mem_filter hc) h1 h2]
  rfl

lemma moneyRun_group (dd : List Char) (d1 d2 x : Char) (xs : List Char)
    (hdd : ∀ c ∈ dd, isMoneyC c = true) (h1 : isMoneyC d1 = true)
    (h2 : isMoneyC d2 = true) (hx : isMoneyC x = false) :
    moneyRun (dd ++ '.' :: d1 :: d2 :: x :: xs) = some (dd ++ ['.', d1, d2], x :: xs) := by
  have ht : (dd ++ '.' :: d1 :: d2 :: x :: xs).takeWhile isMoneyC = dd ++ ['.', d1, d2] := by
    rw [takeWhileAppAll _ hdd, List.takeWhile_cons_of_pos (by decide),
      List.takeWhile_cons_of_pos h1, List.takeWhile_cons_of_pos h2,
      List.takeWhile_cons_of_neg (by simp [hx])]
  have hd : (dd ++ '.' :: d1 :: d2 :: x :: xs).dropWhile isMoneyC = x :: xs := by
    rw [dropWhileAppAll _ hdd, List.dropWhile_cons_of_pos (by decide),
      List.dropWhile_cons_of_pos h1, List.dropWhile_cons_of_pos h2,
      List.dropWhile_cons_of_neg (by simp [hx])]
  have hne : (dd ++ ['.', d1, d2]).isEmpty = false := by cases dd <;> simp
  unfold moneyRun
  rw [ht, hd, hne]
  simp

lemma moneyRun_group_end (dd : List Char) (d1 d2 : Char)
    (hdd : ∀ c ∈ dd, isMoneyC c = true) (h1 : isMoneyC d1 = true)
    (h2 : isMoneyC d2 = true) :
    moneyRun (dd ++ ['.', d1, d2]) = some (dd ++ ['.', d1, d2], []) := by
  have ht : (dd ++ ['.', d1, d2]).takeWhile isMoneyC = dd ++ ['.', d1, d2] := by
    rw [takeWhileAppAll _ hdd, List.takeWhile_cons_of_pos (by decide),
      List.takeWhile_cons_of_pos h1, List.takeWhile_cons_of_pos h2, List.takeWhile_nil]
  have hd : (dd ++ ['.', d1, d2]).dropWhile isMoneyC = [] := by
    rw [dropWhileAppAll _ hdd, List.dropWhile_cons_of_pos (by decide),
      List.dropWhile_cons_of_pos h1, List.dropWhile_cons_of_pos h2, List.dropWhile_nil]
  have hne : (dd ++ ['.', d1, d2]).isEmpty = false := by cases dd <;> simp
  unfold moneyRun
  rw [ht, hd, hne]
  simp

lemma skipWs_space (l : List Char) : skipWs (' ' :: l) = skipWs l := by
  unfold skipWs
  exact List.dropWhile_cons_of_pos (by decide)

lemma skipWs_cons_of_not {c : Char} (h : c.isWhitespace = false) (l : List Char) :
    skipWs (c :: l) = c :: l := by
  unfold skipWs
  exact List.dropWhile_cons_of_neg (by simp [h])

lemma matchStrictAt_eval (county rest : List Char) (hc : county ≠ [])
    (hcc : ∀ c ∈ county, c ≠ ',') :
    matchStrictAt (county ++ ',' :: rest) = afterComma county rest := by
  obtain ⟨c0, ct, rfl⟩ : ∃ c0 ct, county = c0 :: ct := by
    cases county with
    | nil => exact absurd rfl hc
    | cons c0 ct => exact ⟨c0, ct, rfl⟩
  have h' : ∀ c ∈ c0 :: ct, ((c != ',') = true) := fun c hc' => by
    simpa using hcc c hc'
  have ht : ((c0 :: ct) ++ ',' :: rest).takeWhile (fun c => c != ',') = c0 :: ct := by
    rw [takeWhileAppAll _ h', List.takeWhile_cons_of_neg (by decide), List.append_nil]
  have hd : ((c0 :: ct) ++ ',' :: rest).dropWhile (fun c => c != ',') = ',' :: rest := by
    rw [dropWhileAppAll _ h', List.dropWhile_cons_of_neg (by decide)]
  unfold matchStrictAt
  rw [ht, hd]
  rfl

lemma afterComma_eval (county : List Char) (s1 s2 : Char) (tail : List Char)
    (hs1 : 'A' ≤ s1 ∧ s1 ≤ 'Z') (hs2 : 'A' ≤ s2 ∧ s2 ≤ 'Z') :
    afterComma county (' ' :: s1 :: s2 :: tail) = stageDiff county [s1, s2] tail := by
  unfold afterComma
  rw [show skipWs (' ' :: s1 :: s2 :: tail) = s1 :: s2 :: tail from by
    rw [skipWs_space, skipWs_cons_of_not (upper_not_ws hs1.1)]]
  show (if letterIC s1 && letterIC s2 then stageDiff county [s1, s2] tail else none)
    = stageDiff county [s1, s2] tail
  have hl : (letterIC s1 && letterIC s2) = true := by
    simp [letterIC, hs1.1, hs1.2, hs2.1, hs2.2]
  rw [if_pos hl]

lemma stageDiff_eval (county ab : List Char) (g : List Char) :
    stageDiff county ab (' ' :: 'D' :: 'i' :: 'f' :: 'f' :: ' ' :: '(' :: 'I' :: 'n' :: 'd'
      :: ' ' :: '-' :: ' ' :: 'S' :: 'm' :: 'a' :: 'l' :: 'l' :: ')' :: ':' :: ' ' :: '$' :: g)
      = stageDiffNum county ab g := rfl

lemma stageDiffNum_eval (county ab : List Char) (dd : List Char) (d1 d2 x : Char)
    (xs : List Char) (hdd : ∀ c ∈ dd, c.isDigit = true ∨ c = ',')
    (h1 : d1.isDigit = true) (h2 : d2.isDigit = true) (hx : isMoneyC x = false) :
    stageDiffNum county ab (dd ++ '.' :: d1 :: d2 :: x :: xs)
      = stageIndLit county ab (dd ++ ['.', d1, d2]) (x :: xs) := by
  unfold stageDiffNum
  rw [moneyRun_group dd d1 d2 x xs (fun c hc => moneyC_dc (hdd c hc))
    (moneyC_digit h1) (moneyC_digit h2) hx]

lemma stageIndLit_eval (county ab dg : List Char) (g : List Char) :
    stageIndLit county ab dg (' ' :: 'I' :: 'n' :: 'd' :: 'i' :: 'v' :: 'i' :: 'd' :: 'u'
      :: 'a' :: 'l' :: ':' :: ' ' :: '$' :: g) = stageIndNum county ab dg g := rfl

lemma stageIndNum_eval (county ab dg : List Char) (di : List Char) (i1 i2 x : Char)
    (xs : List Char) (hdi : ∀ c ∈ di, c.isDigit = true ∨ c = ',')
    (h1 : i1.isDigit = true) (h2 : i2.isDigit = true) (hx : isMoneyC x = false) :
    stageIndNum county ab dg (di ++ '.' :: i1 :: i2 :: x :: xs)
      = stageSgLit county ab dg (di ++ ['.', i1, i2]) (x :: xs) := by
  unfold stageIndNum
  rw [moneyRun_group di i1 i2 x xs (fun c hc => moneyC_dc (hdi c hc))
    (moneyC_digit h1) (moneyC_digit h2) hx]

lemma stageSgLit_eval (county ab dg ig : List Char) (g : List Char) :
    stageSgLit county ab dg ig (' ' :: 'S' :: 'm' :: 'a' :: 'l' :: 'l' :: ' ' :: 'G' :: 'r'
      :: 'o' :: 'u' :: 'p' :: ':' :: ' ' :: '$' :: g) = stageSgNum county ab dg ig g := rfl

lemma stageSgNum_eval (county ab dg ig : List Char) (dgg : List Char) (g1 g2 : Char)
    (hdgg : ∀ c ∈ dgg, c.isDigit = true ∨ c = ',')
    (h1 : g1.isDigit = true) (h2 : g2.isDigit = true) :
    stageSgNum county ab dg ig (dgg ++ ['.', g1, g2])
      = some ⟨county, ab, dg, ig, dgg ++ ['.', g1, g2]⟩ := by
  unfold stageSgNum
  rw [moneyRun_group_end dgg g1 g2 (fun c hc => moneyC_dc (hdgg c hc))
    (moneyC_digit h1) (moneyC_digit h2)]

/-- A strict-format tooltip text in whitespace-normalized form:
`<county>, <S1><S2> Diff (Ind - Small): $<dd>.<d1><d2> Individual: $<di>.<i1><i2>
Small Group: $<dg>.<g1><g2>`. -/
def strictText (county : List Char) (s1 s2 : Char) (dd : List Char) (d1 d2 : Char)
    (di : List Char) (i1 i2 : Char) (dg : List Char) (g1 g2 : Char) : List Char :=
  county ++ ',' :: ' ' :: s1 :: s2 :: ' ' :: 'D' :: 'i' :: 'f' :: 'f' :: ' ' :: '(' :: 'I'
    :: 'n' :: 'd' :: ' ' :: '-' :: ' ' :: 'S' :: 'm' :: 'a' :: 'l' :: 'l' :: ')' :: ':'
    :: ' ' :: '$'
    :: (dd ++ '.' :: d1 :: d2 :: ' ' :: 'I' :: 'n' :: 'd' :: 'i' :: 'v' :: 'i' :: 'd'
    :: 'u' :: 'a' :: 'l' :: ':' :: ' ' :: '$'
    :: (di ++ '.' :: i1 :: i2 :: ' ' :: 'S' :: 'm' :: 'a' :: 'l' :: 'l' :: ' ' :: 'G'
    :: 'r' :: 'o' :: 'u' :: 'p' :: ':' :: ' ' :: '$'
    :: (dg ++ ['.', g1, g2])))

lemma matchStrictAt_strictText
    (county : List Char) (s1 s2 : Char) (dd : List Char) (d1 d2 : Char)
    (di : List Char) (i1 i2 : Char) (dg : List Char) (g1 g2 : Char)
    (hc : county ≠ []) (hcc : ∀ c ∈ county, c ≠ ',')
    (hs1 : 'A' ≤ s1 ∧ s1 ≤ 'Z') (hs2 : 'A' ≤ s2 ∧ s2 ≤ 'Z')
    (hdd : ∀ c ∈ dd, c.isDigit = true ∨ c = ',')
    (hd1 : d1.isDigit = true) (hd2 : d2.isDigit = true)
    (hdi : ∀ c ∈ di, c.isDigit = true ∨ c = ',')
    (hi1 : i1.isDigit = true) (hi2 : i2.isDigit = true)
    (hdg : ∀ c ∈ dg, c.isDigit = true ∨ c = ',')
    (hg1 : g1.isDigit = true) (hg2 : g2.isDigit = true) :
    matchStrictAt (strictText county s1 s2 dd d1 d2 di i1 i2 dg g1 g2)
      = some ⟨county, [s1, s2], dd ++ ['.', d1, d2], di ++ ['.', i1, i2],
        dg ++ ['.', g1, g2]⟩ := by
  unfold strictText
  rw [matchStrictAt_eval county _ hc hcc]
  rw [afterComma_eval county s1 s2 _ hs1 hs2]
  rw [stageDiff_eval]
  rw [stageDiffNum_eval county [s1, s2] dd d1 d2 ' ' _ hdd hd1 hd2 (by decide)]
  rw [stageIndLit_eval]
  rw [stageIndNum_eval county [s1, s2] (dd ++ ['.', d1, d2]) di i1 i2 ' ' _ hdi hi1 hi2
    (by decide)]
  rw [stageSgLit_eval]
  rw [stageSgNum_eval county [s1, s2] (dd ++ ['.', d1, d2]) (di ++ ['.', i1, i2]) dg g1 g2
    hdg hg1 hg2]

lemma searchStrict_strictText
    (county : List Char) (s1 s2 : Char) (dd : List Char) (d1 d2 : Char)
    (di : List Char) (i1 i2 : Char) (dg : List Char) (g1 g2 : Char)
    (hc : county ≠ []) (hcc : ∀ c ∈ county, c ≠ ',')
    (hs1 : 'A' ≤ s1 ∧ s1 ≤ 'Z') (hs2 : 'A' ≤ s2 ∧ s2 ≤ 'Z')
    (hdd : ∀ c ∈ dd, c.isDigit = true ∨ c = ',')
    (hd1 : d1.isDigit = true) (hd2 : d2.isDigit = true)
    (hdi : ∀ c ∈ di, c.isDigit = true ∨ c = ',')
    (hi1 : i1.isDigit = true) (hi2 : i2.isDigit = true)
    (hdg : ∀ c ∈ dg, c.isDigit = true ∨ c = ',')
    (hg1 : g1.isDigit = true) (hg2 : g2.isDigit = true) :
    searchStrict (strictText county s1 s2 dd d1 d2 di i1 i2 dg g1 g2)
      = some ⟨county, [s1, s2], dd ++ ['.', d1, d2], di ++ ['.', i1, i2],
        dg ++ ['.', g1, g2]⟩ := by
  have hm := matchStrictAt_strictText county s1 s2 dd d1 d2 di i1 i2 dg g1 g2
    hc hcc hs1 hs2 hdd hd1 hd2 hdi hi1 hi2 hdg hg1 hg2
  obtain ⟨c0, ct, rfl⟩ : ∃ c0 ct, county = c0 :: ct := by
    cases county with
    | nil => exact absurd rfl hc
    | cons c0 ct => exact ⟨c0, ct, rfl⟩
  unfold strictText at hm ⊢
  simp only [List.cons_append] at hm ⊢
  simp only [searchStrict]
  rw [hm]

/-- C1: for every tooltip text whose whitespace-normalization is in the valid
strict format — nonempty comma-free county (itself whitespace-trimmed), two
upper-case state letters, then `Diff (Ind - Small)`, `Individual` and
`Small Group` dollar amounts with two decimal places (thousands separators
allowed) — `parse_tooltip` matches the strict pattern and returns exactly the
county, the state, and the three amounts written in the text, each recovered
as its exact two-decimal rational value. -/
theorem parse_tooltip_strict_roundtrip
    (county : List Char) (s1 s2 : Char) (dd : List Char) (d1 d2 : Char)
    (di : List Char) (i1 i2 : Char) (dg : List Char) (g1 g2 : Char) (t : String)
    (hc : county ≠ []) (hcc : ∀ c ∈ county, c ≠ ',') (hstrip : pyStrip county = county)
    (hs1 : 'A' ≤ s1 ∧ s1 ≤ 'Z') (hs2 : 'A' ≤ s2 ∧ s2 ≤ 'Z')
    (hdd : ∀ c ∈ dd, c.isDigit = true ∨ c = ',')
    (hd1 : d1.isDigit = true) (hd2 : d2.isDigit = true)
    (hdi : ∀ c ∈ di, c.isDigit = true ∨ c = ',')
    (hi1 : i1.isDigit = true) (hi2 : i2.isDigit = true)
    (hdg : ∀ c ∈ dg, c.isDigit = true ∨ c = ',')
    (hg1 : g1.isDigit = true) (hg2 : g2.isDigit = true)
    (hnorm : normWs t.data = strictText county s1 s2 dd d1 d2 di i1 i2 dg g1 g2) :
    parse_tooltip t = some ⟨String.mk county, String.mk [s1, s2],
      some (moneyVal di i1 i2), some (moneyVal dg g1 g2), some (moneyVal dd d1 d2)⟩ := by
  have ht : t ≠ "" := by
    intro h
    subst h
    rw [show normWs "".data = [] from rfl] at hnorm
    have hne : strictText county s1 s2 dd d1 d2 di i1 i2 dg g1 g2 ≠ [] := by
      unfold strictText
      cases county <;> simp
    exact hne hnorm.symm
  unfold parse_tooltip
  rw [if_neg ht]
  simp only [hnorm]
  rw [searchStrict_strictText county s1 s2 dd d1 d2 di i1 i2 dg g1 g2
    hc hcc hs1 hs2 hdd hd1 hd2 hdi hi1 hi2 hdg hg1 hg2]
  show some (⟨String.mk (pyStrip county), String.mk (pyStrip [s1, s2]),
    parse_money (di ++ ['.', i1, i2]), parse_money (dg ++ ['.', g1, g2]),
    parse_money (dd ++ ['.', d1, d2])⟩ : TooltipData)
    = some (⟨String.mk county, String.mk [s1, s2], some (moneyVal di i1 i2),
      some (moneyVal dg g1 g2), some (moneyVal dd d1 d2)⟩ : TooltipData)
  rw [hstrip]
  rw [pyStripEqSelf (by
    intro c hcm
    simp only [List.mem_cons, List.not_mem_nil, or_false] at hcm
    rcases hcm with rfl | rfl
    · exact upper_not_ws hs1.1
    · exact upper_not_ws hs2.1)]
  rw [parse_money_group di i1 i2 hdi hi1 hi2, parse_money_group dg g1 g2 hdg hg1 hg2,
    parse_money_group dd d1 d2 hdd hd1 hd2]

unseal Rat.add Rat.mul Rat.inv Rat.sub in
theorem parse_tooltip_strict_roundtrip_w :
    parse_tooltip "Shasta County, CA\nDiff (Ind - Small): $605.64\nIndividual: $1,414.50 Small Group: $808.86"
      = some ⟨"Shasta County", "CA", some (2829 / 2), some (40443 / 50), some (15141 / 25)⟩ := by
  have h := parse_tooltip_strict_roundtrip
    ['S', 'h', 'a', 's', 't', 'a', ' ', 'C', 'o', 'u', 'n', 't', 'y'] 'C' 'A'
    ['6', '0', '5'] '6' '4'
    ['1', ',', '4', '1', '4'] '5' '0'
    ['8', '0', '8'] '8' '6'
    "Shasta County, CA\nDiff (Ind - Small): $605.64\nIndividual: $1,414.50 Small Group: $808.86"
    (by decide) (by decide) (by decide) (by decide) (by decide)
    (by decide) (by decide) (by decide) (by decide) (by decide) (by decide)
    (by decide) (by decide) (by decide) (by decide)
  rw [h]
  decide
